import Mathlib

/-
Verification of the two-factor authorization engine and command dispatcher
of the esp32-solana-signer firmware (src/esp32-solana-signer/src/twofa.rs and
src/esp32-solana-signer/src/main.rs), as a shallow embedding in Lean 4.

Bytes are modelled as Nat values below 256, machine words as Nat with
explicit reductions modulo 2^32 or 2^64 where the Rust types wrap.
-/

/-! ## Byte and word utilities -/

/-- Rotate a 32-bit word left by n bits (n between 1 and 31). -/
def rotl (n x : Nat) : Nat :=
  ((x <<< n) ||| (x >>> (32 - n))) % 4294967296

/-- Big-endian 8-byte encoding of a u64 value, as in u64::to_be_bytes. -/
def toBe8 (n : Nat) : List Nat :=
  [n >>> 56 % 256, n >>> 48 % 256, n >>> 40 % 256, n >>> 32 % 256,
   n >>> 24 % 256, n >>> 16 % 256, n >>> 8 % 256, n % 256]

/-- Little-endian 8-byte encoding of a u64 value, as in u64::to_le_bytes. -/
def u64ToLe (n : Nat) : List Nat :=
  [n % 256, n >>> 8 % 256, n >>> 16 % 256, n >>> 24 % 256,
   n >>> 32 % 256, n >>> 40 % 256, n >>> 48 % 256, n >>> 56 % 256]

/-- Decode an 8-byte little-endian buffer to a u64 value, as in u64::from_le_bytes. -/
def leToU64 (bs : List Nat) : Nat :=
  bs.getD 0 0 + bs.getD 1 0 * 2 ^ 8 + bs.getD 2 0 * 2 ^ 16 + bs.getD 3 0 * 2 ^ 24 +
  bs.getD 4 0 * 2 ^ 32 + bs.getD 5 0 * 2 ^ 40 + bs.getD 6 0 * 2 ^ 48 + bs.getD 7 0 * 2 ^ 56

/-- Big-endian 4-byte encoding of a 32-bit word. -/
def wordBe4 (x : Nat) : List Nat :=
  [x >>> 24 % 256, x >>> 16 % 256, x >>> 8 % 256, x % 256]

/-! ## SHA-1 (FIPS 180-4), modelling the external sha1 crate used by twofa.rs -/

/-- SHA-1 round constant for round t. -/
def sha1K (t : Nat) : Nat :=
  if t < 20 then 0x5A827999
  else if t < 40 then 0x6ED9EBA1
  else if t < 60 then 0x8F1BBCDC
  else 0xCA62C1D6

/-- SHA-1 round function for round t. -/
def sha1F (t b c d : Nat) : Nat :=
  if t < 20 then (b &&& c) ||| ((0xFFFFFFFF ^^^ b) &&& d)
  else if t < 40 then b ^^^ c ^^^ d
  else if t < 60 then (b &&& c) ||| (b &&& d) ||| (c &&& d)
  else b ^^^ c ^^^ d

/-- Message-schedule extension: given the sliding window of the previous 16
words (oldest first), produce the remaining schedule words. -/
def sha1Schedule : Nat → List Nat → List Nat
  | 0, _ => []
  | rem + 1, win =>
    let wt := rotl 1 ((win.getD 13 0) ^^^ (win.getD 8 0) ^^^ (win.getD 2 0) ^^^ (win.getD 0 0))
    wt :: sha1Schedule rem (win.drop 1 ++ [wt])

/-- The 80 rounds of one SHA-1 compression, folding over the schedule words. -/
def sha1Main : List Nat → Nat → Nat × Nat × Nat × Nat × Nat → Nat × Nat × Nat × Nat × Nat
  | [], _, s => s
  | w :: ws, t, (a, b, c, d, e) =>
    let temp := (rotl 5 a + sha1F t b c d + e + sha1K t + w) % 4294967296
    sha1Main ws (t + 1) (temp, a, rotl 30 b, c, d)

/-- The 16 big-endian 32-bit words of a 64-byte block. -/
def wordsOfBlock (b : List Nat) : List Nat :=
  (List.range 16).map fun i =>
    ((b.getD (4 * i) 0) <<< 24) ||| ((b.getD (4 * i + 1) 0) <<< 16) |||
    ((b.getD (4 * i + 2) 0) <<< 8) ||| (b.getD (4 * i + 3) 0)

/-- Process one 64-byte block into the running hash state. -/
def sha1Block (bytes : List Nat) (h : Nat × Nat × Nat × Nat × Nat) :
    Nat × Nat × Nat × Nat × Nat :=
  let ws16 := wordsOfBlock bytes
  let ws := ws16 ++ sha1Schedule 64 ws16
  let (h0, h1, h2, h3, h4) := h
  let (a, b, c, d, e) := sha1Main ws 0 (h0, h1, h2, h3, h4)
  ((h0 + a) % 4294967296, (h1 + b) % 4294967296, (h2 + c) % 4294967296,
   (h3 + d) % 4294967296, (h4 + e) % 4294967296)

/-- Process the given number of 64-byte blocks from the front of the buffer. -/
def sha1Blocks : Nat → List Nat → Nat × Nat × Nat × Nat × Nat → Nat × Nat × Nat × Nat × Nat
  | 0, _, h => h
  | n + 1, bytes, h => sha1Blocks n (bytes.drop 64) (sha1Block (bytes.take 64) h)

/-- SHA-1 padding: append 0x80, zeros to 56 mod 64, then the 64-bit bit length. -/
def sha1Pad (msg : List Nat) : List Nat :=
  msg ++ [0x80] ++ List.replicate ((119 - msg.length % 64) % 64) 0 ++ toBe8 (msg.length * 8)

/-- SHA-1 of a byte string, producing the 20-byte digest. -/
def sha1 (msg : List Nat) : List Nat :=
  let padded := sha1Pad msg
  let r := sha1Blocks (padded.length / 64) padded
    (0x67452301, 0xEFCDAB89, 0x98BADCFE, 0x10325476, 0xC3D2E1F0)
  wordBe4 r.1 ++ wordBe4 r.2.1 ++ wordBe4 r.2.2.1 ++ wordBe4 r.2.2.2.1 ++ wordBe4 r.2.2.2.2

/-! ## HMAC-SHA1 (RFC 2104), modelling the external hmac crate -/

/-- HMAC-SHA1 keyed by an arbitrary-length key. -/
def hmacSha1 (key msg : List Nat) : List Nat :=
  let k := if key.length > 64 then sha1 key else key
  let kp := k ++ List.replicate (64 - k.length) 0
  let ipad := kp.map fun b => b ^^^ 0x36
  let opad := kp.map fun b => b ^^^ 0x5C
  sha1 (opad ++ sha1 (ipad ++ msg))

/-! ## One-time-code engine (twofa.rs) -/

def OTP_BYTES : Nat := 20
def OTP_DIGITS : Nat := 6
def OTP_PERIOD : Nat := 30
def OTP_WINDOW : Int := 1
def UNLOCK_SECS : Nat := 120

/-- The hotp function of twofa.rs: HMAC-SHA1 over the big-endian counter,
dynamic truncation, reduction mod 1_000_000.  The digest has 20 bytes, so
digest[19] is its last byte. -/
def hotp (secret : List Nat) (counter : Nat) : Nat :=
  let msg := toBe8 counter
  let digest := hmacSha1 secret msg
  let off := digest.getD 19 0 &&& 0x0f
  let dbc := ((digest.getD off 0 &&& 0x7f) <<< 24)
    ||| ((digest.getD (off + 1) 0) <<< 16)
    ||| ((digest.getD (off + 2) 0) <<< 8)
    ||| (digest.getD (off + 3) 0)
  dbc % 1000000

/-- Zero-padded 6-digit decimal rendering, as in the Rust format width 6
with leading zeros. -/
def zeroPad6 (n : Nat) : String :=
  let s := toString n
  String.mk (List.replicate (6 - s.length) '0') ++ s

/-- The expected code string computed in verify_code for one candidate step. -/
def hotpCode (secret : List Nat) (step : Nat) : String :=
  zeroPad6 (hotp secret step)

/-- Candidate step for window offset w: in twofa.rs this is
(step_now as i64 + w as i64) as u64, i.e. (step_now + w) reduced mod 2^64. -/
def candStep (stepNow : Nat) (w : Int) : Nat :=
  (((stepNow : Int) + w) % (2 ^ 64 : Int)).toNat

/-- Well-formedness gate of verify_code: exactly 6 ASCII digits.  Rust checks
the UTF-8 byte length; since the all-digit check forces ASCII, byte length
and character length agree on every accepted string. -/
def codeWellFormed (code : String) : Bool :=
  code.length == OTP_DIGITS && code.data.all Char.isDigit

/-- The window loop of verify_code over the remaining offsets w. -/
def verifyLoop (code : String) (secret : List Nat) (stepNow lastStep : Nat) :
    List Int → Option Nat
  | [] => none
  | w :: ws =>
    let step := candStep stepNow w
    if step = lastStep then
      verifyLoop code secret stepNow lastStep ws
    else if hotpCode secret step == code then
      some step
    else
      verifyLoop code secret stepNow lastStep ws

/-- verify_code of twofa.rs.  The constant-time byte comparison of the Rust
source is value-equivalent to string equality; timing is not modelled. -/
def verify_code (code : String) (secret : List Nat) (now lastStep : Nat) : Option Nat :=
  if ¬ codeWellFormed code then none
  else
    let stepNow := now / OTP_PERIOD
    verifyLoop code secret stepNow lastStep [-1, 0, 1]

/-! ## Base32 without padding (RFC 4648), modelling data_encoding BASE32_NOPAD -/

def b32Alphabet : List Char := "ABCDEFGHIJKLMNOPQRSTUVWXYZ234567".data

def b32Char (n : Nat) : Char := b32Alphabet.getD n 'A'

/-- Encode bytes five at a time; a final partial group yields the partial
character counts of RFC 4648 without padding. -/
def b32Chunks : List Nat → List Char
  | b1 :: b2 :: b3 :: b4 :: b5 :: rest =>
    [b32Char (b1 >>> 3), b32Char (((b1 % 8) <<< 2) ||| (b2 >>> 6)),
     b32Char ((b2 >>> 1) % 32), b32Char (((b2 % 2) <<< 4) ||| (b3 >>> 4)),
     b32Char (((b3 % 16) <<< 1) ||| (b4 >>> 7)), b32Char ((b4 >>> 2) % 32),
     b32Char (((b4 % 4) <<< 3) ||| (b5 >>> 5)), b32Char (b5 % 32)]
    ++ b32Chunks rest
  | [] => []
  | [b1] => [b32Char (b1 >>> 3), b32Char ((b1 % 8) <<< 2)]
  | [b1, b2] =>
    [b32Char (b1 >>> 3), b32Char (((b1 % 8) <<< 2) ||| (b2 >>> 6)),
     b32Char ((b2 >>> 1) % 32), b32Char ((b2 % 2) <<< 4)]
  | [b1, b2, b3] =>
    [b32Char (b1 >>> 3), b32Char (((b1 % 8) <<< 2) ||| (b2 >>> 6)),
     b32Char ((b2 >>> 1) % 32), b32Char (((b2 % 2) <<< 4) ||| (b3 >>> 4)),
     b32Char ((b3 % 16) <<< 1)]
  | [b1, b2, b3, b4] =>
    [b32Char (b1 >>> 3), b32Char (((b1 % 8) <<< 2) ||| (b2 >>> 6)),
     b32Char ((b2 >>> 1) % 32), b32Char (((b2 % 2) <<< 4) ||| (b3 >>> 4)),
     b32Char (((b3 % 16) <<< 1) ||| (b4 >>> 7)), b32Char ((b4 >>> 2) % 32),
     b32Char ((b4 % 4) <<< 3)]

def base32Nopad (bs : List Nat) : String := String.mk (b32Chunks bs)

/-- str::to_uppercase, character by character (all inputs here are ASCII). -/
def strToUpper (s : String) : String := String.mk (s.data.map Char.toUpper)

/-! ## Persisted state and the TwoFa operations (twofa.rs) -/

/-- Failure cases of the TwoFa operations (anyhow error messages in the
source, plus the propagated store failures). -/
inductive TwoFaErr where
  | alreadyEnrolled
  | secretMissing
  | badCode
  | notEnrolled
  | storage
  deriving DecidableEq, Repr

/-- Message attached to the anyhow errors of twofa.rs (storage failures carry
an ESP-IDF message not fixed by the source). -/
def TwoFaErr.msg : TwoFaErr → String
  | .alreadyEnrolled => "already enrolled"
  | .secretMissing => "secret missing"
  | .badCode => "bad code"
  | .notEnrolled => "not enrolled"
  | .storage => "storage error"

/-- The three persisted twofa NVS entries, each an optional raw blob. -/
structure Nvs where
  otpSecret : Option (List Nat)
  otpLast : Option (List Nat)
  otpEnrolled : Option (List Nat)
  deriving DecidableEq, Repr

/-- EspNvs::get_raw with a buffer of the given size: absent key reads None,
a stored blob that fits is returned whole, a longer blob is an ESP-IDF
error propagated by the question-mark operator. -/
def getRawBlob (blob : Option (List Nat)) (bufSize : Nat) :
    Except TwoFaErr (Option (List Nat)) :=
  match blob with
  | none => .ok none
  | some bs => if bs.length ≤ bufSize then .ok (some bs) else .error .storage

/-- get_secret of twofa.rs: a stored blob of exactly 20 bytes, else None. -/
def getSecret (nvs : Nvs) : Except TwoFaErr (Option (List Nat)) :=
  match getRawBlob nvs.otpSecret OTP_BYTES with
  | .error e => .error e
  | .ok none => .ok none
  | .ok (some slice) =>
    if slice.length = OTP_BYTES then .ok (some slice) else .ok none

/-- get_u64 of twofa.rs: Some only when the stored blob has exactly 8 bytes. -/
def getU64 (blob : Option (List Nat)) : Except TwoFaErr (Option Nat) :=
  match getRawBlob blob 8 with
  | .error e => .error e
  | .ok none => .ok none
  | .ok (some slice) =>
    if slice.length = 8 then .ok (some (leToU64 slice)) else .ok none

/-- get_u8 of twofa.rs: Some only when the stored blob has exactly 1 byte. -/
def getU8 (blob : Option (List Nat)) : Except TwoFaErr (Option Nat) :=
  match getRawBlob blob 1 with
  | .error e => .error e
  | .ok none => .ok none
  | .ok (some slice) =>
    if slice.length = 1 then .ok (some (slice.getD 0 0)) else .ok none

/-- TwoFa::is_enrolled: the stored flag byte, defaulted to 0, compared to 1. -/
def isEnrolled (nvs : Nvs) : Except TwoFaErr Bool :=
  match getU8 nvs.otpEnrolled with
  | .error e => .error e
  | .ok v => .ok (v.getD 0 = 1)

/-- TwoFa::begin.  The 20 random bytes drawn from OsRng are passed in as the
rand argument.  Returns the Base32 provisioning string and the new store;
on failure the store is returned unchanged (the source writes nothing
before the enrolled check). -/
def TwoFa.begin (rand : List Nat) (nvs : Nvs) : Except TwoFaErr String × Nvs :=
  match isEnrolled nvs with
  | .error e => (.error e, nvs)
  | .ok true => (.error .alreadyEnrolled, nvs)
  | .ok false =>
    (.ok (strToUpper (base32Nopad rand)),
     { nvs with otpSecret := some rand, otpLast := some (u64ToLe 0),
                otpEnrolled := some [0] })

/-- TwoFa::confirm.  unixOpt is the optional explicit timestamp and deviceNow
the value device_unix_time would return (unwrap_or_else). -/
def TwoFa.confirm (code : String) (unixOpt : Option Nat) (deviceNow : Nat) (nvs : Nvs) :
    Except TwoFaErr Unit × Nvs :=
  match getSecret nvs with
  | .error e => (.error e, nvs)
  | .ok none => (.error .secretMissing, nvs)
  | .ok (some secret) =>
    let now := unixOpt.getD deviceNow
    match getU64 nvs.otpLast with
    | .error e => (.error e, nvs)
    | .ok lastOpt =>
      let last := lastOpt.getD 0
      match verify_code code secret now last with
      | some accepted =>
        (.ok (), { nvs with otpLast := some (u64ToLe accepted), otpEnrolled := some [1] })
      | none => (.error .badCode, nvs)

/-- TwoFa::unlock.  On success returns now + UNLOCK_SECS in wrapping u64
arithmetic (release-profile semantics of the Rust addition). -/
def TwoFa.unlock (code : String) (unixOpt : Option Nat) (deviceNow : Nat) (nvs : Nvs) :
    Except TwoFaErr Nat × Nvs :=
  match isEnrolled nvs with
  | .error e => (.error e, nvs)
  | .ok false => (.error .notEnrolled, nvs)
  | .ok true =>
    match getSecret nvs with
    | .error e => (.error e, nvs)
    | .ok none => (.error .secretMissing, nvs)
    | .ok (some secret) =>
      let now := unixOpt.getD deviceNow
      match getU64 nvs.otpLast with
      | .error e => (.error e, nvs)
      | .ok lastOpt =>
        let last := lastOpt.getD 0
        match verify_code code secret now last with
        | some accepted =>
          (.ok ((now + UNLOCK_SECS) % 2 ^ 64), { nvs with otpLast := some (u64ToLe accepted) })
        | none => (.error .badCode, nvs)

/-! ## Base64 (RFC 4648, standard alphabet with canonical padding),
modelling base64::engine::general_purpose::STANDARD -/

def b64Alphabet : List Char :=
  "ABCDEFGHIJKLMNOPQRSTUVWXYZabcdefghijklmnopqrstuvwxyz0123456789+/".data

def b64CharOf (n : Nat) : Char := b64Alphabet.getD n 'A'

def b64EncodeChunks : List Nat → List Char
  | [] => []
  | [b1] => [b64CharOf (b1 >>> 2), b64CharOf ((b1 % 4) <<< 4), '=', '=']
  | [b1, b2] =>
    [b64CharOf (b1 >>> 2), b64CharOf (((b1 % 4) <<< 4) ||| (b2 >>> 4)),
     b64CharOf ((b2 % 16) <<< 2), '=']
  | b1 :: b2 :: b3 :: rest =>
    [b64CharOf (b1 >>> 2), b64CharOf (((b1 % 4) <<< 4) ||| (b2 >>> 4)),
     b64CharOf (((b2 % 16) <<< 2) ||| (b3 >>> 6)), b64CharOf (b3 % 64)]
    ++ b64EncodeChunks rest

def base64Encode (bs : List Nat) : String := String.mk (b64EncodeChunks bs)

def b64Val (c : Char) : Option Nat :=
  if 'A' ≤ c ∧ c ≤ 'Z' then some (c.toNat - 65)
  else if 'a' ≤ c ∧ c ≤ 'z' then some (c.toNat - 71)
  else if '0' ≤ c ∧ c ≤ '9' then some (c.toNat + 4)
  else if c = '+' then some 62
  else if c = '/' then some 63
  else none

/-- Canonical decode: length a multiple of 4, padding only in the final
group, zero trailing bits (the default strict STANDARD engine config). -/
def b64DecodeChunks : List Char → Option (List Nat)
  | [] => some []
  | c1 :: c2 :: c3 :: c4 :: rest =>
    match b64Val c1, b64Val c2 with
    | some v1, some v2 =>
      if c3 = '=' then
        if c4 = '=' ∧ rest = [] ∧ v2 % 16 = 0 then
          some [(v1 <<< 2) ||| (v2 >>> 4)]
        else none
      else
        match b64Val c3 with
        | some v3 =>
          if c4 = '=' then
            if rest = [] ∧ v3 % 4 = 0 then
              some [(v1 <<< 2) ||| (v2 >>> 4), ((v2 % 16) <<< 4) ||| (v3 >>> 2)]
            else none
          else
            match b64Val c4 with
            | some v4 =>
              match b64DecodeChunks rest with
              | some tl =>
                some ([(v1 <<< 2) ||| (v2 >>> 4), ((v2 % 16) <<< 4) ||| (v3 >>> 2),
                       ((v3 % 4) <<< 6) ||| v4] ++ tl)
              | none => none
            | none => none
        | none => none
    | _, _ => none
  | _ => none

def base64Decode (s : String) : Option (List Nat) := b64DecodeChunks s.data

/-! ## Base58 decoding, modelling the bs58 crate (used only for the constant
placeholder blockhash) -/

def b58Alphabet : List Char :=
  "123456789ABCDEFGHJKLMNPQRSTUVWXYZabcdefghijkmnopqrstuvwxyz".data

def b58Val (c : Char) : Option Nat :=
  b58Alphabet.indexOf? c

def natToBytesLe : Nat → Nat → List Nat
  | 0, _ => []
  | fuel + 1, n => if n = 0 then [] else n % 256 :: natToBytesLe fuel (n / 256)

def bs58Decode (s : String) : Option (List Nat) :=
  let cs := s.data
  let zeros := (cs.takeWhile fun c => c == '1').length
  let folded := cs.foldl (fun acc c =>
    match acc, b58Val c with
    | some n, some v => some (n * 58 + v)
    | _, _ => none) (some 0)
  folded.map fun n => List.replicate zeros 0 ++ (natToBytesLe 64 n).reverse

/-! ## The command dispatcher of main.rs, twofa feature enabled -/

def PLACEHOLDER_BLOCKHASH : String := "11111111111111111111111111111112"

def MEMO_PROGRAM_ID : List Nat :=
  [5, 74, 83, 90, 153, 41, 33, 6, 77, 36, 232, 113, 96, 218, 56, 124, 124, 53, 181, 221,
   188, 146, 187, 129, 228, 31, 168, 64, 65, 5, 68, 141]

/-- create_placeholder_transaction of main.rs.  The Ed25519 signing primitive
is external; it enters as the sign parameter. -/
def createPlaceholderTx (pubkeyBytes : List Nat) (sign : List Nat → List Nat) :
    Except String (List Nat) :=
  match bs58Decode PLACEHOLDER_BLOCKHASH with
  | none => .error "Invalid blockhash"
  | some blockhash =>
    if blockhash.length ≠ 32 then .error "Blockhash must be 32 bytes"
    else
      let memoBytes := "Hello from ESP32 Solana Signer!".data.map Char.toNat
      let message := [1, 0, 1, 2] ++ pubkeyBytes ++ MEMO_PROGRAM_ID ++ blockhash
        ++ [1, 1, 1, 0] ++ [memoBytes.length] ++ memoBytes
      .ok ([1] ++ sign message ++ message)

/-- str::starts_with over the character lists of the two strings. -/
def beginsWith : List Char → List Char → Bool
  | [], _ => true
  | _ :: _, [] => false
  | p :: ps, c :: cs => p == c && beginsWith ps cs

def strBeginsWith (s pre : String) : Bool := beginsWith pre.data s.data

/-- The command name of a line per the protocol parsing rule: the text up to
the first colon. -/
def cmdOf (s : String) : String := String.mk (s.data.takeWhile fun c => c != ':')

/-- str::split at colons, as used for the OTP command arguments. -/
def splitColon : List Char → List (List Char)
  | [] => [[]]
  | c :: cs =>
    match splitColon cs with
    | [] => [[]]
    | r :: rs => if c = ':' then [] :: r :: rs else (c :: r) :: rs

/-- u64::from_str as invoked by parse::<u64>().ok(): optional plus sign, one
or more ASCII digits, value below 2^64. -/
def parseU64 (s : String) : Option Nat :=
  let t := match s.data with
    | '+' :: rest => rest
    | l => l
  if t.isEmpty || !(t.all Char.isDigit) then none
  else
    let v := t.foldl (fun acc c => acc * 10 + (c.toNat - 48)) 0
    if v < 2 ^ 64 then some v else none

/-- The in-memory device state of the main loop: the persisted store plus the
non-persisted unlocked_until session deadline. -/
structure DevState where
  nvs : Nvs
  unlockedUntil : Nat
  deriving DecidableEq, Repr

/-- Boot state of the main loop: unlocked_until is initialized to 0. -/
def bootState (nvs : Nvs) : DevState := ⟨nvs, 0⟩

/-- Observable outcome of processing one line: successor state, the response
line (none for an empty input), whether the presence gate (button wait) was
invoked, and the bytes signed, if any. -/
structure StepOut where
  state : DevState
  response : Option String
  presence : Bool
  signed : Option (List Nat)
  deriving DecidableEq, Repr

/-- One iteration of the dispatcher loop of main.rs on a complete, trimmed
input line, with the twofa feature compiled in.  pubkeyB58 and pubkeyBytes
are the cached key data computed at boot, sign the Ed25519 signing closure,
rand the bytes OsRng would produce for OTP_BEGIN, and now the value
device_unix_time returns during this iteration. -/
def stepLine (pubkeyB58 : String) (pubkeyBytes : List Nat) (sign : List Nat → List Nat)
    (rand : List Nat) (now : Nat) (st : DevState) (input : String) : StepOut :=
  if input = "GET_PUBKEY" then
    ⟨st, some ("PUBKEY:" ++ pubkeyB58), false, none⟩
  else if input = "CREATE_TX" then
    match createPlaceholderTx pubkeyBytes sign with
    | .ok tx => ⟨st, some ("TRANSACTION:" ++ base64Encode tx), false, none⟩
    | .error e => ⟨st, some ("ERROR:Transaction creation failed: " ++ e), false, none⟩
  else if input = "TX_INFO" then
    ⟨st, some ("TX_INFO:memo=\x27Hello from ESP32 Solana Signer!\x27;blockhash="
      ++ PLACEHOLDER_BLOCKHASH
      ++ ";program=MemoSq4gqABAXKb96qnH8TysNcWxMyWCqXgDLGmfcHr"), false, none⟩
  else if input = "OTP_BEGIN" then
    match TwoFa.begin rand st.nvs with
    | (.ok b32, nvs2) =>
      ⟨⟨nvs2, st.unlockedUntil⟩,
       some ("OTP_SECRET:" ++ b32 ++ ";ALGO=SHA1;DIGITS=6;PERIOD=30"), false, none⟩
    | (.error e, nvs2) =>
      ⟨⟨nvs2, st.unlockedUntil⟩, some ("ERROR:" ++ e.msg), false, none⟩
  else if strBeginsWith input "OTP_CONFIRM:" then
    let parts := splitColon (input.data.drop 12)
    let code := String.mk (parts.getD 0 [])
    let unix := (parts.get? 1).bind fun l => parseU64 (String.mk l)
    match TwoFa.confirm code unix now st.nvs with
    | (.ok _, nvs2) => ⟨⟨nvs2, st.unlockedUntil⟩, some "OTP_CONFIRMED", false, none⟩
    | (.error _, nvs2) => ⟨⟨nvs2, st.unlockedUntil⟩, some "ERROR:OTP_BAD_CODE", false, none⟩
  else if strBeginsWith input "OTP_UNLOCK:" then
    let parts := splitColon (input.data.drop 11)
    let code := String.mk (parts.getD 0 [])
    let unix := (parts.get? 1).bind fun l => parseU64 (String.mk l)
    match TwoFa.unlock code unix now st.nvs with
    | (.ok ts, nvs2) =>
      ⟨⟨nvs2, ts⟩, some ("UNLOCKED_UNTIL:" ++ toString ts), false, none⟩
    | (.error _, nvs2) =>
      ⟨⟨nvs2, st.unlockedUntil⟩, some "ERROR:OTP_BAD_CODE", false, none⟩
  else if strBeginsWith input "SIGN:" then
    if now > st.unlockedUntil then
      ⟨st, some "ERROR:LOCKED", false, none⟩
    else
      match base64Decode (String.mk (input.data.drop 5)) with
      | some messageBytes =>
        ⟨st, some ("SIGNATURE:" ++ base64Encode (sign messageBytes)), true, some messageBytes⟩
      | none => ⟨st, some "ERROR:Invalid base64 encoding", false, none⟩
  else if input = "SHUTDOWN" then
    ⟨st, some "SHUTDOWN_OK", false, none⟩
  else if input ≠ "" then
    ⟨st, some "ERROR:Unknown command", false, none⟩
  else
    ⟨st, none, false, none⟩

/-! ## Specification-side definitions

These definitions follow the wording of the design document and the claims,
for comparison with the source-derived definitions above. -/

/-- Reference HOTP from the specification text: HMAC-SHA1 keyed by the secret
over the 8-byte big-endian counter, dynamic truncation taking the low nibble
of the last digest byte as offset into a 4-byte big-endian window with the
top bit masked, reduced mod 1_000_000 and zero-padded to 6 digits. -/
def hotpSpec (secret : List Nat) (counter : Nat) : String :=
  let digest := hmacSha1 secret (toBe8 counter)
  let off := digest.getD 19 0 % 16
  let window := ((digest.getD off 0) <<< 24) ||| ((digest.getD (off + 1) 0) <<< 16)
    ||| ((digest.getD (off + 2) 0) <<< 8) ||| (digest.getD (off + 3) 0)
  zeroPad6 ((window &&& 0x7fffffff) % 1000000)

/-- The three candidate steps examined for a given step_now, in loop order.
In u64 arithmetic the lower neighbour of 0 wraps to 2^64 - 1. -/
def windowCands (stepNow : Nat) : List Nat :=
  [candStep stepNow (-1), candStep stepNow 0, candStep stepNow 1]

/-- Specification-side verification: well-formedness gate, then the first
candidate in window order that differs from last_step and whose computed
code equals the submitted code. -/
def verifySpec (code : String) (secret : List Nat) (now lastStep : Nat) : Option Nat :=
  if codeWellFormed code then
    ((windowCands (now / OTP_PERIOD)).filter fun c => c != lastStep).find?
      fun c => hotpCode secret c == code
  else none

/-- The trimmed command vocabulary the dispatcher of main.rs recognizes,
identified by the text before the first colon. -/
def knownCommands : List String :=
  ["GET_PUBKEY", "CREATE_TX", "TX_INFO", "OTP_BEGIN", "OTP_CONFIRM",
   "OTP_UNLOCK", "SIGN", "SHUTDOWN"]

/-! ## Concrete data for witnesses and counterexamples -/

/-- The 20-byte ASCII secret of the RFC 4226 test vectors. -/
def rfcSecret : List Nat := "12345678901234567890".data.map Char.toNat

/-- A store holding the RFC secret, last accepted step 2, enrolled. -/
def nvsLast2 : Nvs := ⟨some rfcSecret, some (u64ToLe 2), some [1]⟩

/-- A store holding the RFC secret, last accepted step 0, enrolled. -/
def nvsEnrolled0 : Nvs := ⟨some rfcSecret, some (u64ToLe 0), some [1]⟩

/-- The empty store of a fresh device. -/
def nvsEmpty : Nvs := ⟨none, none, none⟩



/-! ## Supporting lemmas -/

lemma byteBitFalse {b j : Nat} (hb : b < 256) (hj : 8 ≤ j) : b.testBit j = false :=
  Nat.testBit_lt_two_pow (lt_of_lt_of_le hb (Nat.pow_le_pow_right (by norm_num : 0 < 2) hj))

lemma dbcMaskEq (a b c d : Nat) (hb : b < 256) (hc : c < 256) (hd : d < 256) :
    ((a &&& 0x7f) <<< 24) ||| (b <<< 16) ||| (c <<< 8) ||| d
      = ((a <<< 24) ||| (b <<< 16) ||| (c <<< 8) ||| d) &&& 0x7fffffff := by
  apply Nat.eq_of_testBit_eq
  intro i
  have h127 : (0x7f : Nat) = 2 ^ 7 - 1 := rfl
  have hmask : (0x7fffffff : Nat) = 2 ^ 31 - 1 := rfl
  simp only [Nat.testBit_lor, Nat.testBit_land, Nat.testBit_shiftLeft, h127, hmask,
    Nat.testBit_two_pow_sub_one]
  rcases lt_or_ge i 31 with h31 | h31
  · simp only [show i < 31 by omega, decide_True, Bool.and_true]
    rcases lt_or_ge i 24 with h24 | h24
    · simp [show ¬ (i ≥ 24) by omega]
    · have h7 : i - 24 < 7 := by omega
      simp [show i ≥ 24 by omega, h7]
  · have hb16 : b.testBit (i - 16) = false := byteBitFalse hb (by omega)
    have hc8 : c.testBit (i - 8) = false := byteBitFalse hc (by omega)
    have hdi : d.testBit i = false := byteBitFalse hd (by omega)
    have h724 : ¬ (i - 24 < 7) := by omega
    simp [show i ≥ 24 by omega, show i ≥ 16 by omega, show i ≥ 8 by omega,
      show ¬ (i < 31) by omega, hb16, hc8, hdi, h724]

lemma wordBe4_lt {x y : Nat} (h : y ∈ wordBe4 x) : y < 256 := by
  simp [wordBe4] at h
  rcases h with h | h | h | h <;> omega

lemma sha1_mem_lt (msg : List Nat) {y : Nat} (h : y ∈ sha1 msg) : y < 256 := by
  simp only [sha1, List.mem_append] at h
  rcases h with ((((h | h) | h) | h) | h) <;> exact wordBe4_lt h

lemma sha1_getD_lt (msg : List Nat) (i : Nat) : (sha1 msg).getD i 0 < 256 := by
  rcases lt_or_ge i (sha1 msg).length with h | h
  · have hm : (sha1 msg).getD i 0 ∈ sha1 msg := by
      rw [List.getD_eq_getElem _ _ h]
      exact List.getElem_mem h
    exact sha1_mem_lt msg hm
  · rw [List.getD_eq_default _ _ h]
    norm_num

lemma hmacSha1_getD_lt (key msg : List Nat) (i : Nat) : (hmacSha1 key msg).getD i 0 < 256 := by
  simp only [hmacSha1]
  exact sha1_getD_lt _ _

/-- C6 — the one-time-code computation of twofa.rs agrees with the reference
HOTP definition of the specification on every secret and counter.  Both sides
are pure functions, so determinism on identical inputs is immediate. -/
theorem hotp_matches_reference (secret : List Nat) (counter : Nat) :
    hotpCode secret counter = hotpSpec secret counter := by
  simp only [hotpCode, hotp, hotpSpec]
  have h15 : (0x0f : Nat) = 2 ^ 4 - 1 := rfl
  have hoff : (hmacSha1 secret (toBe8 counter)).getD 19 0 &&& 0x0f
      = (hmacSha1 secret (toBe8 counter)).getD 19 0 % 16 := by
    rw [h15, Nat.and_pow_two_sub_one_eq_mod]
  rw [hoff]
  rw [dbcMaskEq _ _ _ _ (hmacSha1_getD_lt _ _ _) (hmacSha1_getD_lt _ _ _)
    (hmacSha1_getD_lt _ _ _)]

lemma verifyLoop_eq_find (code : String) (secret : List Nat) (sn lastStep : Nat)
    (ws : List Int) :
    verifyLoop code secret sn lastStep ws =
      ((ws.map (candStep sn)).filter fun c => c != lastStep).find?
        fun c => hotpCode secret c == code := by
  induction ws with
  | nil => rfl
  | cons w ws ih =>
    simp only [verifyLoop, List.map_cons, List.filter_cons]
    by_cases h1 : candStep sn w = lastStep
    · simp [h1, ih]
    · by_cases h2 : hotpCode secret (candStep sn w) == code
      · simp [h1, h2, List.find?_cons]
      · simp [h1, h2, List.find?_cons, ih]

lemma verify_code_eq_spec (code : String) (secret : List Nat) (now lastStep : Nat) :
    verify_code code secret now lastStep = verifySpec code secret now lastStep := by
  unfold verify_code verifySpec
  by_cases h : codeWellFormed code
  · simp [h, verifyLoop_eq_find, windowCands]
  · simp [h]

/-- C3 (amended) — verify_code gates on the 6-ASCII-digit shape, then returns
the first candidate in the fixed order step_now-1, step_now, step_now+1
(computed in wrapping u64 arithmetic, so for step_now = 0 the lower
neighbour is 2^64 - 1) that differs from last_step and whose computed code
equals the input; the candidate equal to last_step is skipped regardless of
a match, and no match yields none. -/
theorem verify_code_window_characterization (code : String) (secret : List Nat)
    (now lastStep : Nat) :
    verify_code code secret now lastStep = verifySpec code secret now lastStep :=
  verify_code_eq_spec code secret now lastStep

set_option maxRecDepth 40000 in
/-- C3 counterexample — at now = 0 the claimed candidate list step_now-1,
step_now, step_now+1 does not exist in plain arithmetic: the code for step
2^64 - 1 (distance far above two from step_now = 0, and not the code of
step 0 or 1) is accepted, because the i64-to-u64 cast wraps the lower
window neighbour around. -/
theorem verify_code_wrap_counterexample :
    verify_code "094451" rfcSecret 0 5 = some 18446744073709551615 ∧
    (0 : Nat) / 30 = 0 ∧
    hotpCode rfcSecret 0 ≠ "094451" ∧
    hotpCode rfcSecret 1 ≠ "094451" ∧
    2 ≤ (18446744073709551615 : Nat) - 0 := by
  refine ⟨by decide, rfl, by decide, by decide, by norm_num⟩

lemma verify_code_some {code : String} {secret : List Nat} {now lastStep s : Nat}
    (h : verify_code code secret now lastStep = some s) :
    s ∈ windowCands (now / OTP_PERIOD) ∧ s ≠ lastStep ∧ hotpCode secret s = code := by
  rw [verify_code_eq_spec] at h
  unfold verifySpec at h
  by_cases hw : codeWellFormed code
  · rw [if_pos hw] at h
    have hmem := List.mem_of_find?_eq_some h
    have hp := List.find?_some h
    rw [List.mem_filter] at hmem
    refine ⟨hmem.1, ?_, ?_⟩
    · have := hmem.2
      simpa using this
    · simpa using hp
  · rw [if_neg hw] at h
    cases h

lemma confirm_error_preserves {code : String} {unixOpt : Option Nat} {deviceNow : Nat}
    {nvs : Nvs} {e : TwoFaErr}
    (h : (TwoFa.confirm code unixOpt deviceNow nvs).1 = .error e) :
    (TwoFa.confirm code unixOpt deviceNow nvs).2 = nvs := by
  rcases h1 : getSecret nvs with e1 | s1
  · simp [TwoFa.confirm, h1]
  · rcases s1 with _ | secret
    · simp [TwoFa.confirm, h1]
    · rcases h2 : getU64 nvs.otpLast with e2 | lastOpt
      · simp [TwoFa.confirm, h1, h2]
      · rcases h3 : verify_code code secret (unixOpt.getD deviceNow) (lastOpt.getD 0)
          with _ | a
        · simp [TwoFa.confirm, h1, h2, h3]
        · simp [TwoFa.confirm, h1, h2, h3] at h

lemma unlock_error_preserves {code : String} {unixOpt : Option Nat} {deviceNow : Nat}
    {nvs : Nvs} {e : TwoFaErr}
    (h : (TwoFa.unlock code unixOpt deviceNow nvs).1 = .error e) :
    (TwoFa.unlock code unixOpt deviceNow nvs).2 = nvs := by
  rcases h0 : isEnrolled nvs with e0 | b0
  · simp [TwoFa.unlock, h0]
  · rcases b0 with _ | _
    · simp [TwoFa.unlock, h0]
    · rcases h1 : getSecret nvs with e1 | s1
      · simp [TwoFa.unlock, h0, h1]
      · rcases s1 with _ | secret
        · simp [TwoFa.unlock, h0, h1]
        · rcases h2 : getU64 nvs.otpLast with e2 | lastOpt
          · simp [TwoFa.unlock, h0, h1, h2]
          · rcases h3 : verify_code code secret (unixOpt.getD deviceNow) (lastOpt.getD 0)
              with _ | a
            · simp [TwoFa.unlock, h0, h1, h2, h3]
            · simp [TwoFa.unlock, h0, h1, h2, h3] at h

/-- C2 — a verification failure of confirm or unlock (the BadCode branch, or
any other error) leaves every persisted field of the store unchanged; only a
successful verification writes. -/
theorem failed_verification_preserves_store (code : String) (unixOpt : Option Nat)
    (deviceNow : Nat) (nvs : Nvs) :
    ((TwoFa.confirm code unixOpt deviceNow nvs).1 = .error .badCode →
      (TwoFa.confirm code unixOpt deviceNow nvs).2 = nvs) ∧
    ((TwoFa.unlock code unixOpt deviceNow nvs).1 = .error .badCode →
      (TwoFa.unlock code unixOpt deviceNow nvs).2 = nvs) ∧
    (∀ e : TwoFaErr, (TwoFa.confirm code unixOpt deviceNow nvs).1 = .error e →
      (TwoFa.confirm code unixOpt deviceNow nvs).2 = nvs) ∧
    (∀ e : TwoFaErr, (TwoFa.unlock code unixOpt deviceNow nvs).1 = .error e →
      (TwoFa.unlock code unixOpt deviceNow nvs).2 = nvs) :=
  ⟨fun h => confirm_error_preserves h, fun h => unlock_error_preserves h,
   fun _ h => confirm_error_preserves h, fun _ h => unlock_error_preserves h⟩

set_option maxRecDepth 40000 in
/-- C2 witness — the code 000000 matches no candidate step at time 60, and
both operations leave the enrolled store byte-for-byte unchanged. -/
theorem failed_verification_preserves_store_witness :
    (TwoFa.confirm "000000" none 60 nvsEnrolled0).1 = .error .badCode ∧
    (TwoFa.confirm "000000" none 60 nvsEnrolled0).2 = nvsEnrolled0 ∧
    (TwoFa.unlock "000000" none 60 nvsEnrolled0).2 = nvsEnrolled0 :=
  ⟨rfl, (failed_verification_preserves_store "000000" none 60 nvsEnrolled0).1 rfl,
   (failed_verification_preserves_store "000000" none 60 nvsEnrolled0).2.1 rfl⟩

lemma b32Char_mem (n : Nat) : b32Char n ∈ b32Alphabet := by
  unfold b32Char
  rcases lt_or_ge n b32Alphabet.length with h | h
  · rw [List.getD_eq_getElem _ _ h]
    exact List.getElem_mem h
  · rw [List.getD_eq_default _ _ h]
    decide

lemma b32Chunks_subset : ∀ (bs : List Nat), ∀ c ∈ b32Chunks bs, c ∈ b32Alphabet
  | b1 :: b2 :: b3 :: b4 :: b5 :: rest => by
    intro c hc
    simp only [b32Chunks] at hc
    rcases List.mem_append.mp hc with h | h
    · simp only [List.mem_cons, List.not_mem_nil, or_false] at h
      rcases h with h | h | h | h | h | h | h | h <;> exact h ▸ b32Char_mem _
    · exact b32Chunks_subset rest c h
  | [] => by intro c hc; simp [b32Chunks] at hc
  | [b1] => by
    intro c hc
    simp only [b32Chunks, List.mem_cons, List.not_mem_nil, or_false] at hc
    rcases hc with h | h <;> exact h ▸ b32Char_mem _
  | [b1, b2] => by
    intro c hc
    simp only [b32Chunks, List.mem_cons, List.not_mem_nil, or_false] at hc
    rcases hc with h | h | h | h <;> exact h ▸ b32Char_mem _
  | [b1, b2, b3] => by
    intro c hc
    simp only [b32Chunks, List.mem_cons, List.not_mem_nil, or_false] at hc
    rcases hc with h | h | h | h | h <;> exact h ▸ b32Char_mem _
  | [b1, b2, b3, b4] => by
    intro c hc
    simp only [b32Chunks, List.mem_cons, List.not_mem_nil, or_false] at hc
    rcases hc with h | h | h | h | h | h | h <;> exact h ▸ b32Char_mem _

lemma b32Alphabet_upper_nopad : ∀ c ∈ b32Alphabet,
    Char.toUpper c = c ∧ (c.isUpper ∨ c.isDigit) ∧ c ≠ '=' := by decide

lemma strToUpper_base32 (bs : List Nat) : strToUpper (base32Nopad bs) = base32Nopad bs := by
  unfold strToUpper base32Nopad
  congr 1
  show (b32Chunks bs).map Char.toUpper = b32Chunks bs
  calc (b32Chunks bs).map Char.toUpper
      = (b32Chunks bs).map id :=
        List.map_congr_left fun a ha => (b32Alphabet_upper_nopad a (b32Chunks_subset bs a ha)).1
    _ = b32Chunks bs := List.map_id _

/-- C5 — begin on an enrolled store fails with AlreadyEnrolled leaving every
persisted field byte-identical; on a not-enrolled store it persists the fresh
secret, resets LastAcceptedStep to 0, persists EnrolledFlag = false and
returns the secret Base32-encoded without padding; every character of the
returned string is an upper-case letter or a digit of the RFC 4648 Base32
alphabet and no padding character occurs. -/
theorem begin_enrollment_contract (rand : List Nat) (nvs : Nvs) :
    (isEnrolled nvs = .ok true →
      TwoFa.begin rand nvs = (.error .alreadyEnrolled, nvs)) ∧
    (isEnrolled nvs = .ok false →
      TwoFa.begin rand nvs =
        (.ok (base32Nopad rand),
         { nvs with otpSecret := some rand, otpLast := some (u64ToLe 0),
                    otpEnrolled := some [0] }) ∧
      (∀ c ∈ (base32Nopad rand).data,
        c ∈ b32Alphabet ∧ (c.isUpper ∨ c.isDigit) ∧ c ≠ '=')) := by
  constructor
  · intro h
    simp [TwoFa.begin, h]
  · intro h
    refine ⟨by simp [TwoFa.begin, h, strToUpper_base32], fun c hc => ?_⟩
    have hmem : c ∈ b32Alphabet := b32Chunks_subset rand c hc
    exact ⟨hmem, (b32Alphabet_upper_nopad c hmem).2.1, (b32Alphabet_upper_nopad c hmem).2.2⟩

/-- C5 witness — begin refused on an enrolled store and the store unchanged;
begin on an empty store persists secret, zero step and cleared flag. -/
theorem begin_enrollment_contract_witness :
    TwoFa.begin rfcSecret nvsEnrolled0 = (.error .alreadyEnrolled, nvsEnrolled0) ∧
    TwoFa.begin rfcSecret nvsEmpty =
      (.ok (base32Nopad rfcSecret),
       ⟨some rfcSecret, some (u64ToLe 0), some [0]⟩) :=
  ⟨(begin_enrollment_contract rfcSecret nvsEnrolled0).1 rfl,
   ((begin_enrollment_contract rfcSecret nvsEmpty).2 rfl).1⟩

/-- C7 (amended) — unlock fails with NotEnrolled whenever the enrolled flag
reads false; when enrolled and the code verifies it persists the accepted
step and returns now + 120 in wrapping u64 arithmetic, which equals
now + 120 exactly whenever that sum stays below 2^64. -/
theorem unlock_contract (code : String) (unixOpt : Option Nat) (deviceNow : Nat)
    (nvs : Nvs) :
    (isEnrolled nvs = .ok false →
      TwoFa.unlock code unixOpt deviceNow nvs = (.error .notEnrolled, nvs)) ∧
    (∀ (secret : List Nat) (lastOpt : Option Nat) (accepted : Nat),
      isEnrolled nvs = .ok true →
      getSecret nvs = .ok (some secret) →
      getU64 nvs.otpLast = .ok lastOpt →
      verify_code code secret (unixOpt.getD deviceNow) (lastOpt.getD 0) = some accepted →
      TwoFa.unlock code unixOpt deviceNow nvs =
        (.ok ((unixOpt.getD deviceNow + UNLOCK_SECS) % 2 ^ 64),
         { nvs with otpLast := some (u64ToLe accepted) })) := by
  constructor
  · intro h
    simp [TwoFa.unlock, h]
  · intro secret lastOpt accepted h0 h1 h2 h3
    simp [TwoFa.unlock, h0, h1, h2, h3]

set_option maxRecDepth 40000 in
/-- C7 witness — unlock before any successful confirm (flag stored 0) is
refused with NotEnrolled; an enrolled unlock with a valid code at time 60
persists step 1 and returns 180 = 60 + 120. -/
theorem unlock_contract_witness :
    TwoFa.unlock "287082" none 60 ⟨some rfcSecret, some (u64ToLe 0), some [0]⟩
      = (.error .notEnrolled, ⟨some rfcSecret, some (u64ToLe 0), some [0]⟩) ∧
    TwoFa.unlock "287082" none 60 nvsEnrolled0
      = (.ok 180, ⟨some rfcSecret, some (u64ToLe 1), some [1]⟩) :=
  ⟨(unlock_contract "287082" none 60 ⟨some rfcSecret, some (u64ToLe 0), some [0]⟩).1 rfl,
   (unlock_contract "287082" none 60 nvsEnrolled0).2 rfcSecret (some 0) 1 rfl rfl rfl rfl⟩

set_option maxRecDepth 40000 in
/-- C7 counterexample — at the attacker-suppliable timestamp 2^64 - 1 a valid
code makes unlock return 119, which is not now + 120: the u64 addition
wraps, so the deadline is not *exactly* now + 120 seconds for every now. -/
theorem unlock_overflow_counterexample :
    TwoFa.unlock "856882" none 18446744073709551615 nvsEnrolled0
      = (.ok 119, ⟨some rfcSecret, some (u64ToLe 614891469123651719), some [1]⟩) ∧
    (119 : Nat) ≠ 18446744073709551615 + 120 :=
  ⟨rfl, by norm_num⟩

/-- C9 — confirm never reads the enrolled flag: on any store holding a
20-byte secret, including an already-enrolled one, a verifying code makes
confirm succeed, update LastAcceptedStep to the accepted step and rewrite
EnrolledFlag = true; moreover the confirm result is invariant under
replacing the stored enrolled blob by anything else. -/
theorem confirm_ignores_enrolled_flag (code : String) (unixOpt : Option Nat)
    (deviceNow : Nat) (nvs : Nvs) :
    (∀ (secret : List Nat) (lastOpt : Option Nat) (accepted : Nat),
      getSecret nvs = .ok (some secret) →
      getU64 nvs.otpLast = .ok lastOpt →
      verify_code code secret (unixOpt.getD deviceNow) (lastOpt.getD 0) = some accepted →
      TwoFa.confirm code unixOpt deviceNow nvs =
        (.ok (), { nvs with otpLast := some (u64ToLe accepted),
                            otpEnrolled := some [1] })) ∧
    (∀ e1 e2 : Option (List Nat),
      (TwoFa.confirm code unixOpt deviceNow { nvs with otpEnrolled := e1 }).1 =
        (TwoFa.confirm code unixOpt deviceNow { nvs with otpEnrolled := e2 }).1) := by
  constructor
  · intro secret lastOpt accepted h1 h2 h3
    simp [TwoFa.confirm, h1, h2, h3]
  · intro e1 e2
    have hs1 : getSecret { nvs with otpEnrolled := e1 } = getSecret nvs := rfl
    have hs2 : getSecret { nvs with otpEnrolled := e2 } = getSecret nvs := rfl
    have hl1 : ({ nvs with otpEnrolled := e1 } : Nvs).otpLast = nvs.otpLast := rfl
    have hl2 : ({ nvs with otpEnrolled := e2 } : Nvs).otpLast = nvs.otpLast := rfl
    rcases h1 : getSecret nvs with e | s1
    · simp [TwoFa.confirm, hs1, hs2, hl1, hl2, h1]
    · rcases s1 with _ | secret
      · simp [TwoFa.confirm, hs1, hs2, hl1, hl2, h1]
      · rcases h2 : getU64 nvs.otpLast with e | lastOpt
        · simp [TwoFa.confirm, hs1, hs2, hl1, hl2, h1, h2]
        · rcases h3 : verify_code code secret (unixOpt.getD deviceNow) (lastOpt.getD 0)
            with _ | a
          · simp [TwoFa.confirm, hs1, hs2, hl1, hl2, h1, h2, h3]
          · simp [TwoFa.confirm, hs1, hs2, hl1, hl2, h1, h2, h3]

set_option maxRecDepth 40000 in
/-- C9 witness — on an enrolled store (flag byte 1, last accepted step 2) the
code for step 3 is accepted by confirm: repeated enrollment confirmation is
not refused. -/
theorem confirm_ignores_enrolled_flag_witness :
    isEnrolled nvsLast2 = .ok true ∧
    TwoFa.confirm "969429" none 60 nvsLast2
      = (.ok (), ⟨some rfcSecret, some (u64ToLe 3), some [1]⟩) :=
  ⟨rfl,
   (confirm_ignores_enrolled_flag "969429" none 60 nvsLast2).1 rfcSecret (some 2) 3
     rfl rfl rfl⟩

set_option maxRecDepth 40000 in
/-- C1 counterexample — a concrete reachable run in which a successful unlock
writes a LastAcceptedStep strictly below the stored one: begin on a fresh
store, confirm the step-2 code at time 60 (stores step 2), then unlock with
the still unconsumed step-1 code at the same time 60; the unlock succeeds
and rewrites the persisted counter from 2 down to 1. -/
theorem last_step_decrease_counterexample :
    (TwoFa.begin rfcSecret nvsEmpty).2 = ⟨some rfcSecret, some (u64ToLe 0), some [0]⟩ ∧
    TwoFa.confirm "359152" none 60 ⟨some rfcSecret, some (u64ToLe 0), some [0]⟩
      = (.ok (), nvsLast2) ∧
    TwoFa.unlock "287082" none 60 nvsLast2
      = (.ok 180, ⟨some rfcSecret, some (u64ToLe 1), some [1]⟩) ∧
    leToU64 (u64ToLe 1) < leToU64 (u64ToLe 2) :=
  ⟨rfl, rfl, rfl, by decide⟩

/-- C1 (amended) — on every successful confirm or unlock the persisted
LastAcceptedStep becomes exactly the accepted step, which always differs
from the previously stored value and lies in the ±1 window (in wrapping u64
arithmetic) around floor(now / 30) — but it is not monotonically
non-decreasing: nothing prevents the accepted step from being smaller than
the stored one, and the decrease is realized by the counterexample. -/
theorem accepted_step_written_not_monotonic (code : String) (unixOpt : Option Nat)
    (deviceNow : Nat) (nvs : Nvs) (secret : List Nat) (lastOpt : Option Nat)
    (accepted : Nat) :
    getSecret nvs = .ok (some secret) →
    getU64 nvs.otpLast = .ok lastOpt →
    verify_code code secret (unixOpt.getD deviceNow) (lastOpt.getD 0) = some accepted →
    ((TwoFa.confirm code unixOpt deviceNow nvs).2.otpLast = some (u64ToLe accepted) ∧
     (isEnrolled nvs = .ok true →
       (TwoFa.unlock code unixOpt deviceNow nvs).2.otpLast = some (u64ToLe accepted)) ∧
     accepted ≠ lastOpt.getD 0 ∧
     accepted ∈ windowCands ((unixOpt.getD deviceNow) / OTP_PERIOD)) := by
  intro h1 h2 h3
  have hv := verify_code_some h3
  refine ⟨?_, ?_, hv.2.1, hv.1⟩
  · simp [TwoFa.confirm, h1, h2, h3]
  · intro h0
    simp [TwoFa.unlock, h0, h1, h2, h3]

set_option maxRecDepth 40000 in
/-- C1 witness — the unlock of the counterexample run instantiates the
amended statement: the accepted step 1 is written, differs from the stored
step 2, and lies in the window around floor(60 / 30) = 2. -/
theorem accepted_step_written_not_monotonic_witness :
    (TwoFa.confirm "287082" none 60 nvsLast2).2.otpLast = some (u64ToLe 1) ∧
    (1 : Nat) ≠ 2 ∧ 1 ∈ windowCands 2 :=
  have h := accepted_step_written_not_monotonic "287082" none 60 nvsLast2 rfcSecret
    (some 2) 1 rfl rfl rfl
  ⟨h.1, h.2.2.1, h.2.2.2⟩

lemma stepLine_sign_eq (pk : String) (pkb : List Nat) (sign : List Nat → List Nat)
    (rand : List Nat) (now : Nat) (st : DevState) (payload : String) :
    stepLine pk pkb sign rand now st ("SIGN:" ++ payload) =
      if now > st.unlockedUntil then ⟨st, some "ERROR:LOCKED", false, none⟩
      else
        match base64Decode payload with
        | some m => ⟨st, some ("SIGNATURE:" ++ base64Encode (sign m)), true, some m⟩
        | none => ⟨st, some "ERROR:Invalid base64 encoding", false, none⟩ := by
  have hdata : ("SIGN:" ++ payload).data = 'S' :: 'I' :: 'G' :: 'N' :: ':' :: payload.data := by
    rw [String.data_append]
    rfl
  have h1 : ("SIGN:" ++ payload) ≠ "GET_PUBKEY" := by
    intro h
    have h2 := congrArg String.data h
    rw [hdata, show "GET_PUBKEY".data = ['G', 'E', 'T', '_', 'P', 'U', 'B', 'K', 'E', 'Y']
      from rfl] at h2
    injection h2 with h3 _
    exact absurd h3 (by decide)
  have h2 : ("SIGN:" ++ payload) ≠ "CREATE_TX" := by
    intro h
    have hh := congrArg String.data h
    rw [hdata, show "CREATE_TX".data = ['C', 'R', 'E', 'A', 'T', 'E', '_', 'T', 'X']
      from rfl] at hh
    injection hh with h3 _
    exact absurd h3 (by decide)
  have h3 : ("SIGN:" ++ payload) ≠ "TX_INFO" := by
    intro h
    have hh := congrArg String.data h
    rw [hdata, show "TX_INFO".data = ['T', 'X', '_', 'I', 'N', 'F', 'O'] from rfl] at hh
    injection hh with h4 _
    exact absurd h4 (by decide)
  have h4 : ("SIGN:" ++ payload) ≠ "OTP_BEGIN" := by
    intro h
    have hh := congrArg String.data h
    rw [hdata, show "OTP_BEGIN".data = ['O', 'T', 'P', '_', 'B', 'E', 'G', 'I', 'N']
      from rfl] at hh
    injection hh with h5 _
    exact absurd h5 (by decide)
  have hc : strBeginsWith ("SIGN:" ++ payload) "OTP_CONFIRM:" = false := by
    unfold strBeginsWith
    rw [hdata]
    rfl
  have hu : strBeginsWith ("SIGN:" ++ payload) "OTP_UNLOCK:" = false := by
    unfold strBeginsWith
    rw [hdata]
    rfl
  have hs : strBeginsWith ("SIGN:" ++ payload) "SIGN:" = true := by
    unfold strBeginsWith
    rw [hdata]
    rfl
  have hdrop : ("SIGN:" ++ payload).data.drop 5 = payload.data := by
    rw [hdata]
    rfl
  have hmk : String.mk payload.data = payload := rfl
  simp only [stepLine, h1, h2, h3, h4, hc, hu, hs, hdrop, hmk, if_false, if_true,
    Bool.false_eq_true, Bool.true_eq_false, if_neg, ite_false, ite_true]

/-- C4 — the SIGN gate order with two-factor compiled in: (1) when
now > unlocked_until the dispatcher answers ERROR:LOCKED with no presence
wait, no signing and no state change, whatever the payload; (2) otherwise a
payload that fails base64 decoding answers ERROR:Invalid base64 encoding,
again with no presence wait and no signature; (3) otherwise the presence
gate is invoked, the decoded bytes are signed and the response is
SIGNATURE: followed by the base64 signature. -/
theorem sign_gate_order (pk : String) (pkb : List Nat) (sign : List Nat → List Nat)
    (rand : List Nat) (now : Nat) (st : DevState) (payload : String) :
    (now > st.unlockedUntil →
      stepLine pk pkb sign rand now st ("SIGN:" ++ payload) =
        ⟨st, some "ERROR:LOCKED", false, none⟩) ∧
    (¬ now > st.unlockedUntil → base64Decode payload = none →
      stepLine pk pkb sign rand now st ("SIGN:" ++ payload) =
        ⟨st, some "ERROR:Invalid base64 encoding", false, none⟩) ∧
    (¬ now > st.unlockedUntil → ∀ m, base64Decode payload = some m →
      stepLine pk pkb sign rand now st ("SIGN:" ++ payload) =
        ⟨st, some ("SIGNATURE:" ++ base64Encode (sign m)), true, some m⟩) := by
  refine ⟨?_, ?_, ?_⟩
  · intro h
    rw [stepLine_sign_eq, if_pos h]
  · intro h hd
    rw [stepLine_sign_eq, if_neg h, hd]
  · intro h m hd
    rw [stepLine_sign_eq, if_neg h, hd]

/-- C4 witness — on the boot state: a SIGN at time 5 is locked; at time 0
(the boundary) a malformed payload yields the base64 error without the
presence gate, and the well-formed payload AAAA is decoded to three zero
bytes, gated on presence and signed. -/
theorem sign_gate_order_witness :
    stepLine "" [] id [] 5 (bootState nvsEmpty) ("SIGN:" ++ "AAAA") =
      ⟨bootState nvsEmpty, some "ERROR:LOCKED", false, none⟩ ∧
    stepLine "" [] id [] 0 (bootState nvsEmpty) ("SIGN:" ++ "!!") =
      ⟨bootState nvsEmpty, some "ERROR:Invalid base64 encoding", false, none⟩ ∧
    stepLine "" [] id [] 0 (bootState nvsEmpty) ("SIGN:" ++ "AAAA") =
      ⟨bootState nvsEmpty, some ("SIGNATURE:" ++ base64Encode (id [0, 0, 0])), true,
       some [0, 0, 0]⟩ :=
  ⟨(sign_gate_order "" [] id [] 5 (bootState nvsEmpty) "AAAA").1 (by decide),
   (sign_gate_order "" [] id [] 0 (bootState nvsEmpty) "!!").2.1 (by decide) rfl,
   (sign_gate_order "" [] id [] 0 (bootState nvsEmpty) "AAAA").2.2 (by decide) [0, 0, 0] rfl⟩

/-- C10 — the lock comparison is strict: a SIGN line is refused with
ERROR:LOCKED exactly when now > unlocked_until, so at now = unlocked_until
the gate is passed (the response is never ERROR:LOCKED and a decodable
payload reaches the presence gate and is signed); unlocked_until is 0 at
boot, so every now > 0 is locked from startup; and unlocked_until changes
only when a line produces an UNLOCKED_UNTIL response, i.e. on a successful
unlock. -/
theorem lock_comparison_strict (pk : String) (pkb : List Nat) (sign : List Nat → List Nat)
    (rand : List Nat) (now : Nat) (st : DevState) (payload : String) (nvs : Nvs)
    (input : String) :
    (now > st.unlockedUntil →
      (stepLine pk pkb sign rand now st ("SIGN:" ++ payload)).response =
        some "ERROR:LOCKED") ∧
    (now ≤ st.unlockedUntil →
      (stepLine pk pkb sign rand now st ("SIGN:" ++ payload)).response ≠
        some "ERROR:LOCKED" ∧
      (∀ m, base64Decode payload = some m →
        (stepLine pk pkb sign rand now st ("SIGN:" ++ payload)).presence = true ∧
        (stepLine pk pkb sign rand now st ("SIGN:" ++ payload)).signed = some m)) ∧
    (bootState nvs).unlockedUntil = 0 ∧
    (0 < now →
      (stepLine pk pkb sign rand now (bootState nvs) ("SIGN:" ++ payload)).response =
        some "ERROR:LOCKED") ∧
    (∀ out : StepOut, stepLine pk pkb sign rand now st input = out →
      out.state.unlockedUntil ≠ st.unlockedUntil →
      ∃ ts, out.response = some ("UNLOCKED_UNTIL:" ++ toString ts) ∧
        out.state.unlockedUntil = ts) := by
  refine ⟨?_, ?_, rfl, ?_, ?_⟩
  · intro h
    rw [stepLine_sign_eq, if_pos h]
  · intro h
    have hn : ¬ now > st.unlockedUntil := not_lt.mpr h
    constructor
    · rw [stepLine_sign_eq, if_neg hn]
      rcases hd : base64Decode payload with _ | m
      · simp [hd]
      · simp only [hd]
        intro hcon
        have hh := congrArg String.data (Option.some.inj hcon)
        rw [String.data_append] at hh
        simp only [show "SIGNATURE:".data = ['S', 'I', 'G', 'N', 'A', 'T', 'U', 'R', 'E', ':']
            from rfl,
          show "ERROR:LOCKED".data = ['E', 'R', 'R', 'O', 'R', ':', 'L', 'O', 'C', 'K', 'E', 'D']
            from rfl,
          List.cons_append, List.cons.injEq] at hh
        exact absurd hh.1 (by decide)
    · intro m hd
      rw [stepLine_sign_eq, if_neg hn, hd]
      exact ⟨rfl, rfl⟩
  · intro h
    have h2 : now > (bootState nvs).unlockedUntil := h
    rw [stepLine_sign_eq, if_pos h2]
  · intro out hout hne
    simp only [stepLine] at hout
    repeat' split at hout
    all_goals subst hout
    all_goals first
      | exact absurd rfl hne
      | exact ⟨_, rfl, rfl⟩

/-- C10 witness — at time 5 the boot state refuses SIGN with ERROR:LOCKED;
at the boundary time 0 = unlocked_until the payload AAAA passes the gate and
is signed. -/
theorem lock_comparison_strict_witness :
    (stepLine "" [] id [] 5 (bootState nvsEmpty) ("SIGN:" ++ "AAAA")).response =
      some "ERROR:LOCKED" ∧
    (stepLine "" [] id [] 0 (bootState nvsEmpty) ("SIGN:" ++ "AAAA")).presence = true ∧
    (stepLine "" [] id [] 0 (bootState nvsEmpty) ("SIGN:" ++ "AAAA")).signed =
      some [0, 0, 0] :=
  have h1 := (lock_comparison_strict "" [] id [] 5 (bootState nvsEmpty) "AAAA"
    nvsEmpty "").1 (by decide)
  have h2 := ((lock_comparison_strict "" [] id [] 0 (bootState nvsEmpty) "AAAA"
    nvsEmpty "").2.1 (by decide)).2 [0, 0, 0] rfl
  ⟨h1, h2.1, h2.2⟩

lemma beginsWith_exists {p s : List Char} (h : beginsWith p s = true) :
    ∃ t, s = p ++ t := by
  induction p generalizing s with
  | nil => exact ⟨s, rfl⟩
  | cons a as ih =>
    cases s with
    | nil => simp [beginsWith] at h
    | cons b bs =>
      simp only [beginsWith, Bool.and_eq_true, beq_iff_eq] at h
      obtain ⟨t, ht⟩ := ih h.2
      exact ⟨t, by rw [ht, h.1]; rfl⟩

lemma cmdOf_of_confirm {input : String} (h : strBeginsWith input "OTP_CONFIRM:" = true) :
    cmdOf input = "OTP_CONFIRM" := by
  obtain ⟨t, ht⟩ := beginsWith_exists h
  unfold cmdOf
  rw [ht]
  rfl

lemma cmdOf_of_unlock {input : String} (h : strBeginsWith input "OTP_UNLOCK:" = true) :
    cmdOf input = "OTP_UNLOCK" := by
  obtain ⟨t, ht⟩ := beginsWith_exists h
  unfold cmdOf
  rw [ht]
  rfl

lemma cmdOf_of_sign {input : String} (h : strBeginsWith input "SIGN:" = true) :
    cmdOf input = "SIGN" := by
  obtain ⟨t, ht⟩ := beginsWith_exists h
  unfold cmdOf
  rw [ht]
  rfl

/-- C8 (amended) — every non-empty trimmed line whose command (the text
before the first colon) is none of GET_PUBKEY, CREATE_TX, TX_INFO,
OTP_BEGIN, OTP_CONFIRM, OTP_UNLOCK, SIGN, SHUTDOWN is answered with exactly
ERROR:Unknown command and has no other effect; an empty line produces no
response and no effect.  The claimed six-command vocabulary misses the
CREATE_TX and TX_INFO branches of main.rs. -/
theorem unknown_command_contract (pk : String) (pkb : List Nat)
    (sign : List Nat → List Nat) (rand : List Nat) (now : Nat) (st : DevState)
    (input : String) :
    (input ≠ "" → cmdOf input ∉ knownCommands →
      stepLine pk pkb sign rand now st input =
        ⟨st, some "ERROR:Unknown command", false, none⟩) ∧
    stepLine pk pkb sign rand now st "" = ⟨st, none, false, none⟩ := by
  constructor
  · intro hne hcmd
    simp only [knownCommands, List.mem_cons, List.not_mem_nil, or_false, not_or] at hcmd
    obtain ⟨hg, hct, hti, hob, hoc, hou, hsi, hsh⟩ := hcmd
    have t1 : input ≠ "GET_PUBKEY" := fun h => hg (by rw [h]; rfl)
    have t2 : input ≠ "CREATE_TX" := fun h => hct (by rw [h]; rfl)
    have t3 : input ≠ "TX_INFO" := fun h => hti (by rw [h]; rfl)
    have t4 : input ≠ "OTP_BEGIN" := fun h => hob (by rw [h]; rfl)
    have t5 : strBeginsWith input "OTP_CONFIRM:" = false := by
      cases hb : strBeginsWith input "OTP_CONFIRM:"
      · rfl
      · exact absurd (cmdOf_of_confirm hb) hoc
    have t6 : strBeginsWith input "OTP_UNLOCK:" = false := by
      cases hb : strBeginsWith input "OTP_UNLOCK:"
      · rfl
      · exact absurd (cmdOf_of_unlock hb) hou
    have t7 : strBeginsWith input "SIGN:" = false := by
      cases hb : strBeginsWith input "SIGN:"
      · rfl
      · exact absurd (cmdOf_of_sign hb) hsi
    have t8 : input ≠ "SHUTDOWN" := fun h => hsh (by rw [h]; rfl)
    simp [stepLine, t1, t2, t3, t4, t5, t6, t7, t8, hne]
  · rfl

/-- C8 witness — the line BOGUS is answered with exactly ERROR:Unknown
command and leaves the state untouched; the empty line gets no response. -/
theorem unknown_command_contract_witness :
    stepLine "" [] id [] 0 (bootState nvsEmpty) "BOGUS" =
      ⟨bootState nvsEmpty, some "ERROR:Unknown command", false, none⟩ ∧
    stepLine "" [] id [] 0 (bootState nvsEmpty) "" =
      ⟨bootState nvsEmpty, none, false, none⟩ :=
  ⟨(unknown_command_contract "" [] id [] 0 (bootState nvsEmpty) "BOGUS").1
     (by decide) (by decide),
   (unknown_command_contract "" [] id [] 0 (bootState nvsEmpty) "").2⟩

/-- C8 counterexample — TX_INFO is not among the six commands the claim
lists, yet the dispatcher answers it with its transaction-information line,
not with ERROR:Unknown command. -/
theorem unknown_command_counterexample :
    cmdOf "TX_INFO" ∉
      ["GET_PUBKEY", "OTP_BEGIN", "OTP_CONFIRM", "OTP_UNLOCK", "SIGN", "SHUTDOWN"] ∧
    (stepLine "" [] id [] 0 (bootState nvsEmpty) "TX_INFO").response =
      some ("TX_INFO:memo=\x27Hello from ESP32 Solana Signer!\x27;blockhash=11111111111111111111111111111112;program=MemoSq4gqABAXKb96qnH8TysNcWxMyWCqXgDLGmfcHr") ∧
    (stepLine "" [] id [] 0 (bootState nvsEmpty) "TX_INFO").response ≠
      some "ERROR:Unknown command" ∧
    (stepLine "" [] id [] 0 (bootState nvsEmpty) "TX_INFO").state = bootState nvsEmpty :=
  ⟨by decide, rfl, by decide, rfl⟩
